import Mathlib

/-!
# CoffeePipeline — shallow embedding and verification

A shallow embedding of the validation / normalization core of the
CoffeePipeline repository (`src/log_utils.py`, `src/load_coffee_logs.py`,
`src/load_beanconqueror_logs.py`), together with theorems settling the
frozen claims about it.

Cells of a pandas column are modelled by `PyCell` (string, int, float or
null values); a dataframe is an ordered association list from column
names to cell lists.  Functions that can raise return `Except PpErr`,
whose constructors record which Python exception is raised and with what
payload.  Python's `re` semantics used by the pipeline (one-char
anchored trim, whitespace-padded `/` split, label alternation stripping,
`\s{2,}` collapsing) are reproduced exactly on `List Char`.
-/

namespace CoffeePipeline

/-- A floating-point value as it appears in a pandas float64 column:
either a finite value (represented exactly as a rational — every finite
double is rational, and truncation toward zero is exact on this
representation) or one of the non-finite values. -/
inductive Flt where
  | fin (q : ℚ)
  | nan
  | inf
  | ninf
deriving DecidableEq, Repr

def Flt.isFinite : Flt → Bool
  | .fin _ => true
  | _ => false

/-- Truncation toward zero, the semantics of the numpy `float64 → int64`
cast performed by `Series.astype(int)` on finite values (the non-finite
branch is unreachable: the cast raises before truncating; int64 overflow
of astronomically large finite doubles is outside the modelled range). -/
def Flt.trunc : Flt → Int
  | .fin q => if 0 ≤ q then ⌊q⌋ else ⌈q⌉
  | _ => 0

/-- One cell of a pandas object/int/float column. -/
inductive PyCell where
  | pstr (s : String)
  | pint (n : Int)
  | pflt (x : Flt)
  | pnone
deriving DecidableEq, Repr

/-- Model of `pd.isnull` on a cell: `None` and `NaN` are null, everything else
(including `inf`) is not. -/
def isMissing : PyCell → Bool
  | .pnone => true
  | .pflt .nan => true
  | _ => false

/-- Elementwise `== 0` as pandas evaluates it in `check_scores`:
an int or float cell equal to zero compares true, strings and nulls
compare false (`NaN == 0` is false). -/
def cellEqZero : PyCell → Bool
  | .pint n => n == 0
  | .pflt (.fin q) => q == 0
  | _ => false

/-- A dataframe: ordered columns, each a name with its list of cells. -/
abbrev DF := List (String × List PyCell)

/-- Column selection `logs[name]`: the first column labelled `name` (`KeyError` when the
caller gets `none`). -/
def getCol (df : DF) (name : String) : Option (List PyCell) :=
  (df.find? fun kv => kv.1 == name).map Prod.snd

/-- Column assignment `logs[name] = vals`: replace an existing column in place, or append
a new one. -/
def setCol (df : DF) (name : String) (vals : List PyCell) : DF :=
  if (df.find? fun kv => kv.1 == name).isSome then
    df.map fun kv => if kv.1 == name then (name, vals) else kv
  else
    df ++ [(name, vals)]

/-- Model of `logs.drop(name, axis=1)`: every column labelled `name` is removed
(the pipeline only calls it after a successful `logs[name]` access). -/
def dropCol (df : DF) (name : String) : DF :=
  df.filter fun kv => kv.1 != name

/-- Every Python error the modelled fragment can raise, with the payload
the raising site actually carries. -/
inductive PpErr where
  /-- A `KeyError`: a column selection on a missing label. -/
  | keyError (name : String)
  /-- The `AttributeError` from `check_nan_values` line 28: `nan_idx` is
  already a plain `list` (line 19 ends in `.tolist()`), so the f-string's
  `nan_idx.tolist()` raises; `col` is the column being reported. -/
  | attrErrorTolist (col : String)
  /-- The `AttributeError` from `grinder.lower()` on a non-string grinder. -/
  | attrErrorLower
  /-- The `TypeError` from `pd.concat` in `validate_text` line 113: the
  extra-token loop appended plain `list`s to `unexpected_vals`. -/
  | typeErrorConcat (col : String)
  /-- The `TypeError` from `int(None)` inside `astype(int)` on an object
  column containing a null (not caught by `except ValueError`). -/
  | typeErrorIntCast
  /-- The `ValueError` from the `notes.columns = [...]` assignment when the
  split produced `got` columns but `expected` names are assigned. -/
  | lengthMismatch (got expected : Nat)
  /-- The `ValueError` that `check_nan_values` is written to raise
  (provably dead code, see `check_nan_never_enumerates`). -/
  | nanValueError (msgs : List String)
  /-- The `ValueError` from `check_scores`, carrying the offending rows. -/
  | scoreError (rows : List Nat)
  /-- The `ValueError` from `validate_text`, carrying the column name and
  the de-duplicated row-to-original-value dictionary. -/
  | textError (col : String) (pairs : List (Nat × PyCell))
  /-- The `ValueError` "contains non-integer values" from
  `validate_grind_settings`, carrying the rows and values of every cell
  whose value is not of integer type. -/
  | grindNonInteger (pairs : List (Nat × PyCell))
  /-- The `ValueError` "values outside the valid range" from
  `validate_grind_settings`. -/
  | grindRange (pairs : List (Nat × PyCell))
  /-- The bare `raise ValueError` for a grinder missing from
  `config['grind_setting_ranges']`. -/
  | grinderNotConfigured
deriving DecidableEq, Repr

/-! ## check_scores (`src/log_utils.py` lines 38-49) -/

/-- Model of `check_scores(score_col)`: collect the index of every row whose
value compares equal to 0 and raise naming them all, else pass. -/
def check_scores (score_col : List PyCell) : Except PpErr Unit :=
  let unscored_idx := (score_col.enum.filter fun p => cellEqZero p.2).map Prod.fst
  if unscored_idx = [] then .ok () else .error (.scoreError unscored_idx)

/-! ## check_nan_values (`src/log_utils.py` lines 10-35) -/

/-- The required user-input columns, in the order the source iterates. -/
def requiredCols : List String := ["Score (out of 5)", "Bean", "Grind", "Flavor", "Balance"]

/-- Model of `np.where(pd.isnull(logs[col]))[0].tolist()`. -/
def nanIndices (cells : List PyCell) : List Nat :=
  (cells.enum.filter fun p => isMissing p.2).map Prod.fst

/-- The column loop of `check_nan_values`.  Each iteration selects the
column (KeyError if absent), then unconditionally selects `Timestamp`
for the `pd.to_datetime` rendering (KeyError if absent; the rendering
itself is pure and cannot affect the outcome for numeric timestamps, so
its value is not materialised here).  When `nan_idx` is non-empty the
f-string building the message evaluates `nan_idx.tolist()` on a plain
list and raises `AttributeError`, so `nan_msgs` can never grow and the
final enumerating `ValueError` is dead code. -/
def checkNanLoop (df : DF) : List String → List String → Except PpErr Unit
  | [], nan_msgs => if nan_msgs = [] then .ok () else .error (.nanValueError nan_msgs)
  | col :: cols, nan_msgs =>
    match getCol df col with
    | none => .error (.keyError col)
    | some cells =>
      match getCol df "Timestamp" with
      | none => .error (.keyError "Timestamp")
      | some _ts =>
        if nanIndices cells = [] then checkNanLoop df cols nan_msgs
        else .error (.attrErrorTolist col)

/-- Model of `check_nan_values(logs)`. -/
def check_nan_values (df : DF) : Except PpErr Unit :=
  checkNanLoop df requiredCols []

/-- Python `str.split(sep)` for a one-character separator: split at
every occurrence, keeping empty pieces (`''.split('/') == ['']`,
`'a//b'.split('/') == ['a', '', 'b']`). -/
def splitOnChar (sep : Char) : List Char → List (List Char)
  | [] => [[]]
  | c :: cs =>
    if c == sep then [] :: splitOnChar sep cs
    else
      match splitOnChar sep cs with
      | [] => [[c]]
      | p :: ps => (c :: p) :: ps

/-- Python `s.split(' ')` on a string. -/
def pySplitSpace (s : String) : List String :=
  (splitOnChar ' ' s.data).map fun l => ⟨l⟩

/-! ## validate_text (`src/log_utils.py` lines 52-125) -/

/-- Model of `note_col.str.split(' ')` on one cell: Python's `str.split(' ')`
keeps empty tokens, so a string cell always yields at least one token;
a non-string cell (a NaN row) yields no token list and stays NaN. -/
def rowTokens : PyCell → Option (List String)
  | .pstr s => some (pySplitSpace s)
  | _ => none

/-- Number of columns of the `expand=True` dataframe: the maximum token
count over the rows, a NaN row contributing a single (all-NaN) column to
a non-empty frame.  An empty column expands to a 0-column frame. -/
def splitWidth (col : List PyCell) : Nat :=
  (col.map fun c => match rowTokens c with
    | some ts => ts.length
    | none => 1).foldr max 0

/-- Token `j` of a row of the expanded frame (`none` is a NaN slot). -/
def tokAt (c : PyCell) (j : Nat) : Option String :=
  (rowTokens c).bind fun ts => ts[j]?

/-- Row selected by `~notes['adverbs'].isin(adverb_list)`: token 0 out
of vocabulary, a NaN slot also selected since `isin` is false on NaN. -/
def isInvalidAdverb (adverb_list : List String) (c : PyCell) : Bool :=
  match tokAt c 0 with
  | some t => !(adverb_list.contains t)
  | none => true

/-- Row selected by `pd.isna(notes['adjectives'])`: no token 1. -/
def isBlankAdjective (c : PyCell) : Bool :=
  (tokAt c 1).isNone

/-- Row selected by the adjective vocabulary check, which first excludes
NaN slots (`pd.notna`) and then filters `~isin(adjective_list)`. -/
def isInvalidAdjective (adjective_list : List String) (c : PyCell) : Bool :=
  match tokAt c 1 with
  | some t => !(adjective_list.contains t)
  | none => false

/-- Model of `note_col[mask.index]` for a row mask: the (row, original value)
pairs the masked selection carries. -/
def offendingPairs (col : List PyCell) (p : PyCell → Bool) : List (Nat × PyCell) :=
  col.enum.filter fun q => p q.2

/-- Model of `Series.drop_duplicates()` on the concatenated selections: keep the
first occurrence of each distinct value (duplicates are detected by
value, not by row label). -/
def dedupByValueAux (seen : List PyCell) : List (Nat × PyCell) → List (Nat × PyCell)
  | [] => []
  | p :: rest =>
    if seen.contains p.2 then dedupByValueAux seen rest
    else p :: dedupByValueAux (p.2 :: seen) rest

def dedupByValue (l : List (Nat × PyCell)) : List (Nat × PyCell) :=
  dedupByValueAux [] l

/-- Model of `validate_text(note_col, adverb_list, adjective_list)`.

The split frame's width drives the control flow:
* width 0 (empty column): the frame has no columns, so after the no-op
  rename, `notes['adverbs']` raises `KeyError`;
* width 1 (no multi-word cell): the structural message is appended but
  `notes['adjectives']` raises `KeyError` before anything is raised;
* width ≥ 3: the extra-token loop appends plain `list`s to
  `unexpected_vals`, so `pd.concat` raises `TypeError`;
* width 2: the three selections are concatenated; if any is non-empty
  the de-duplicated row-to-value dictionary is raised as `ValueError`,
  else the check passes. -/
def validate_text (colName : String) (note_col : List PyCell)
    (adverb_list adjective_list : List String) : Except PpErr Unit :=
  let w := splitWidth note_col
  if w = 0 then .error (.keyError "adverbs")
  else if w = 1 then .error (.keyError "adjectives")
  else if 2 < w then .error (.typeErrorConcat colName)
  else
    let unexpected :=
      offendingPairs note_col (isInvalidAdverb adverb_list)
        ++ offendingPairs note_col isBlankAdjective
        ++ offendingPairs note_col (isInvalidAdjective adjective_list)
    if unexpected = [] then .ok ()
    else .error (.textError colName (dedupByValue unexpected))

/-- A batch whose `Bean` cell is missing in row 0 and whose other
required columns are complete. -/
def c1FailingBatch : DF :=
  [("Timestamp", [.pint 0]),
   ("Score (out of 5)", [.pint 4]),
   ("Bean", [.pnone]),
   ("Grind", [.pstr "5"]),
   ("Flavor", [.pstr "Very Sweet"]),
   ("Balance", [.pstr "Very Heavy"])]

/-! ## Field Parser (`src/load_coffee_logs.py` lines 399-416 and
`src/load_beanconqueror_logs.py` lines 301-315) -/

/-- Whitespace as matched by the `\s` class of the patterns involved
(the source strings are ASCII; non-ASCII unicode whitespace is outside
the modelled character range). -/
def isPyWs (c : Char) : Bool :=
  c == ' ' || c == '\t' || c == '\n' || c == '\r' || c == '\x0b' || c == '\x0c'

/-- First branch of the label alternation matching at this position
(regex alternation tries the branches left to right), returning the
length of the matched label; empty labels never occur. -/
def firstLabelMatch : List (List Char) → List Char → Option Nat
  | [], _ => none
  | lab :: rest, l =>
    if lab ≠ [] ∧ lab.isPrefixOf l then some lab.length else firstLabelMatch rest l

/-- Model of `Series.str.replace('(Bean:)|…', '', regex=True)` on one
string: scan left to right, removing every leftmost match of the label
alternation.  The fuel is the string length, which bounds the number of
steps since every matched label is non-empty. -/
def stripLabelsAux (labels : List (List Char)) : Nat → List Char → List Char
  | 0, l => l
  | _ + 1, [] => []
  | fuel + 1, c :: cs =>
    match firstLabelMatch labels (c :: cs) with
    | some n => stripLabelsAux labels fuel ((c :: cs).drop n)
    | none => c :: stripLabelsAux labels fuel cs

def stripLabels (labels : List (List Char)) (l : List Char) : List Char :=
  stripLabelsAux labels l.length l

/-- Right-strip of the whitespace a `\s*` before the delimiter consumes. -/
def trimRightWs (l : List Char) : List Char :=
  (l.reverse.dropWhile isPyWs).reverse

/-- Left-strip of the whitespace a `\s*` after the delimiter consumes. -/
def trimLeftWs (l : List Char) : List Char :=
  l.dropWhile isPyWs

/-- Tail handling for `splitSlashWs`: every later piece loses its
leading whitespace, and every piece but the last also loses its
trailing whitespace. -/
def trimBoundariesTail : List (List Char) → List (List Char)
  | [] => []
  | [p] => [trimLeftWs p]
  | p :: rest => trimLeftWs (trimRightWs p) :: trimBoundariesTail rest

/-- Model of `re.split(r'\s*\/\s*', s)`: equivalent to splitting on the
bare `/` and stripping the whitespace adjacent to each delimiter. -/
def splitSlashWs (l : List Char) : List (List Char) :=
  match splitOnChar '/' l with
  | [] => []
  | [p] => [p]
  | p :: rest => trimRightWs p :: trimBoundariesTail rest

/-- Model of `replace(to_replace=r'^\s|\s$', value='', regex=True)` on
one cell: `re.sub` with these single-character anchored branches removes
at most one leading and one trailing whitespace character. -/
def dropHeadWs : List Char → List Char
  | [] => []
  | c :: cs => if isPyWs c then cs else c :: cs

def trimOneWs (l : List Char) : List Char :=
  (dropHeadWs (dropHeadWs l).reverse).reverse

/-- Model of `replace(to_replace=r'\s{2,}', value=' ', regex=True)` on
one cell: every maximal run of two or more whitespace characters becomes
a single space; an isolated whitespace character (even a tab) is kept as
is.  The fuel is the list length. -/
def collapseWsAux : Nat → List Char → List Char
  | 0, l => l
  | _ + 1, [] => []
  | _ + 1, [c] => [c]
  | fuel + 1, c₁ :: c₂ :: rest =>
    if isPyWs c₁ && isPyWs c₂ then ' ' :: collapseWsAux fuel (rest.dropWhile isPyWs)
    else c₁ :: collapseWsAux fuel (c₂ :: rest)

def collapseWs (l : List Char) : List Char :=
  collapseWsAux l.length l

/-- The label alternation of `load_coffee_logs.preprocess_data`:
`'(Bean:)|(Grinder:)|(Grind:)|(Flavor:)|(Balance:)'`. -/
def coffeeLabels : List (List Char) :=
  ["Bean:".data, "Grinder:".data, "Grind:".data, "Flavor:".data, "Balance:".data]

/-- The label alternation of `load_beanconqueror_logs.preprocess_data`:
`'(Flavor:)|(Balance:)'`. -/
def bcLabels : List (List Char) :=
  ["Flavor:".data, "Balance:".data]

/-- The per-cell Field Parser pipeline applied to the composite notes
cell, in source order: strip the label tokens, split on
whitespace-padded `/`, then on every resulting token remove one
leading/trailing whitespace character and collapse interior whitespace
runs. -/
def parseNotesWith (labels : List (List Char)) (s : String) : List String :=
  ((splitSlashWs (stripLabels labels s.data)).map
    fun t => collapseWs (trimOneWs t)).map fun l => ⟨l⟩

def coffeeParseNotes (s : String) : List String := parseNotesWith coffeeLabels s

def bcParseNotes (s : String) : List String := parseNotesWith bcLabels s

/-- Holds when a list of characters has no two adjacent whitespace
characters. -/
def noDoubleWs : List Char → Bool
  | c₁ :: c₂ :: rest => !(isPyWs c₁ && isPyWs c₂) && noDoubleWs (c₂ :: rest)
  | _ => true

/-- The property C5 asserts of every token: no leading whitespace, no
trailing whitespace, no interior run of two or more whitespace
characters. -/
def fullyTrimmed (s : String) : Bool :=
  (match s.data.head? with | some c => !isPyWs c | none => true)
  && (match s.data.getLast? with | some c => !isPyWs c | none => true)
  && noDoubleWs s.data

/-! ## validate_grind_settings (`src/log_utils.py` lines 128-173) -/

/-- Accumulate the value of a non-empty all-digit run, failing on any
non-digit character. -/
def digitsVal : List Char → Nat → Option Nat
  | [], acc => some acc
  | c :: cs, acc =>
    if c.isDigit then digitsVal cs (acc * 10 + (c.toNat - '0'.toNat))
    else none

/-- Python `int(s)` as `astype(int)` applies it to a string element:
optional surrounding whitespace, an optional sign, then one or more
ASCII digits (Python's underscore digit grouping and non-ASCII digits do
not occur in the modelled inputs). -/
def pyParseInt (s : String) : Option Int :=
  let l := ((s.data.dropWhile isPyWs).reverse.dropWhile isPyWs).reverse
  match l with
  | '-' :: ds => if ds = [] then none else (digitsVal ds 0).map fun n => -(n : Int)
  | '+' :: ds => if ds = [] then none else (digitsVal ds 0).map fun n => (n : Int)
  | ds => if ds = [] then none else (digitsVal ds 0).map fun n => (n : Int)

/-- A grind-settings column together with its pandas dtype: an int64
column (integer dtype, no cast), a float64 column, or an object column
of arbitrary cells. -/
inductive GrindCol where
  | intCol (vals : List Int)
  | fltCol (vals : List Flt)
  | objCol (vals : List PyCell)
deriving DecidableEq, Repr

/-- How `astype(int)` fails on one object-column element. -/
inductive CastFail where
  /-- Python `ValueError` from `int()` on a non-numeric string. -/
  | badStr
  /-- Python `ValueError` from `int()` on a non-finite float. -/
  | badFloat
  /-- Python `TypeError` from `int(None)` — not caught by the
  `except ValueError` handler. -/
  | noneCell
deriving DecidableEq, Repr

/-- Cast of one object-column element by `astype(int)`: ints stay,
strings go through `int()`, finite floats truncate toward zero, `None`
raises `TypeError`, non-finite floats raise `ValueError`. -/
def castCell : PyCell → Except CastFail Int
  | .pint n => .ok n
  | .pstr s =>
    match pyParseInt s with
    | some n => .ok n
    | none => .error .badStr
  | .pflt (.fin q) => .ok (Flt.trunc (.fin q))
  | .pflt _ => .error .badFloat
  | .pnone => .error .noneCell

/-- Elementwise `astype(int)` over an object column; the first failing
element (in row order) determines the raised exception. -/
def castObjCol : List PyCell → Except CastFail (List Int)
  | [] => .ok []
  | c :: cs =>
    match castCell c with
    | .error e => .error e
    | .ok n =>
      match castObjCol cs with
      | .error e => .error e
      | .ok ns => .ok (n :: ns)

/-- Model of `pd.api.types.is_integer` on a cell: a type check, true
only for integer-typed values — false for every string (coercible or
not), every float and `None`. -/
def isIntegerTyped : PyCell → Bool
  | .pint _ => true
  | _ => false

/-- Rows selected by `~grind_col.map(pd.api.types.is_integer)` in the
`except ValueError` handler, paired with their (original) values. -/
def nonIntTypedPairs (vals : List PyCell) : List (Nat × PyCell) :=
  vals.enum.filter fun p => !isIntegerTyped p.2

/-- Rows failing `grind_col.between(min_val, max_val, inclusive='both')`
after the cast, paired with their cast integer values. -/
def rangeViolations (vals : List Int) (mn mx : Int) : List (Nat × PyCell) :=
  (vals.enum.filter fun p => !(decide (mn ≤ p.2) && decide (p.2 ≤ mx))).map
    fun p => (p.1, .pint p.2)

/-- Model of `validate_grind_settings(grind_col, min_val, max_val)`.

An integer-dtype column skips the cast.  A float column's
`astype(int)` truncates finite values toward zero and raises
`ValueError` on any non-finite value (pandas `IntCastingNaNError`
subclasses `ValueError`), upon which the handler reports every row of
the original column, because `is_integer` is false for every float.  An
object column's cast applies `int()` elementwise: `ValueError` (bad
string or non-finite float) is caught and every non-integer-typed row
of the original column is reported — including coercible strings —
while `TypeError` from a `None` element escapes uncaught.  When the
cast succeeds, values outside `[min_val, max_val]` are reported with
the cast integers. -/
def validate_grind_settings (grind_col : GrindCol) (min_val max_val : Int) :
    Except PpErr Unit :=
  match grind_col with
  | .intCol vals =>
    let invalid := rangeViolations vals min_val max_val
    if invalid = [] then .ok () else .error (.grindRange invalid)
  | .fltCol vals =>
    if vals.all Flt.isFinite then
      let invalid := rangeViolations (vals.map Flt.trunc) min_val max_val
      if invalid = [] then .ok () else .error (.grindRange invalid)
    else
      .error (.grindNonInteger (vals.enum.map fun p => (p.1, .pflt p.2)))
  | .objCol vals =>
    match castObjCol vals with
    | .ok cast =>
      let invalid := rangeViolations cast min_val max_val
      if invalid = [] then .ok () else .error (.grindRange invalid)
    | .error .noneCell => .error .typeErrorIntCast
    | .error _ => .error (.grindNonInteger (nonIntTypedPairs vals))

/-- Holds for the cells an object-dtype grind column built from parsed
text can contain: integers and strings. -/
def isIntOrStr : PyCell → Bool
  | .pint _ => true
  | .pstr _ => true
  | _ => false

/-! ## preprocess_data (`src/load_coffee_logs.py` lines 379-456) -/

/-- The externally supplied configuration the normalizer reads:
vocabulary lists and the grinder-to-range mapping
(`config['descriptors']` and `config['grind_setting_ranges']`). -/
structure PipelineConfig where
  adverbs : List String
  flavors : List String
  balance : List String
  grindRanges : List (String × Int × Int)

/-- Model of `logs['Coffee'].str.replace(' g', '')` on one cell: the
literal substring is removed everywhere it occurs (re-using the label
stripper with the single pattern `" g"`); the `.str` accessor turns a
non-string cell into NaN. -/
def stripGCell : PyCell → PyCell
  | .pstr s => .pstr ⟨stripLabels [" g".data] s.data⟩
  | _ => .pnone

/-- Tokenization of one `Note` cell by the Field Parser; a non-string
cell stays NaN through the `.str` pipeline. -/
def noteTokens : PyCell → Option (List String)
  | .pstr s => some (coffeeParseNotes s)
  | _ => none

/-- Width of the expanded notes frame (as `splitWidth`, with a NaN row
of a non-empty column contributing one all-NaN column). -/
def notesWidth (cells : List PyCell) : Nat :=
  (cells.map fun c => match noteTokens c with
    | some ts => ts.length
    | none => 1).foldr max 0

/-- Column `j` of the expanded notes frame: token `j` of each row, NaN
where the row has fewer tokens. -/
def notesColumnJ (cells : List PyCell) (j : Nat) : List PyCell :=
  cells.map fun c =>
    match noteTokens c with
    | some ts =>
      match ts[j]? with
      | some t => .pstr t
      | none => .pnone
    | none => .pnone

/-- Elementwise pandas equality (`Series.eq`): `None` and `NaN` compare
unequal to everything, themselves included. -/
def pyEq : PyCell → PyCell → Bool
  | .pnone, _ => false
  | _, .pnone => false
  | .pflt .nan, _ => false
  | _, .pflt .nan => false
  | a, b => a == b

/-- Model of `Series.unique()`: the values in order of first
occurrence (pandas reports a null at most once, matching structural
equality here). -/
def uniqueCellsAux (seen : List PyCell) : List PyCell → List PyCell
  | [] => []
  | c :: cs =>
    if seen.contains c then uniqueCellsAux seen cs
    else c :: uniqueCellsAux (c :: seen) cs

def uniqueCells (l : List PyCell) : List PyCell :=
  uniqueCellsAux [] l

/-- Model of `re.sub(r'\s+|-', '_', grinder.lower())`: a run of
whitespace becomes one underscore, each hyphen its own underscore, and
letters are lowercased (ASCII).  The fuel is the string length. -/
def normGrinderAux : Nat → List Char → List Char
  | 0, l => l
  | _ + 1, [] => []
  | fuel + 1, c :: cs =>
    if isPyWs c then '_' :: normGrinderAux fuel (cs.dropWhile isPyWs)
    else if c == '-' then '_' :: normGrinderAux fuel cs
    else c.toLower :: normGrinderAux fuel cs

def normGrinder (s : String) : String :=
  ⟨normGrinderAux s.data.length s.data⟩

/-- Lookup in `config['grind_setting_ranges']` (`min`/`max` pair). -/
def lookupRange (ranges : List (String × Int × Int)) (name : String) :
    Option (Int × Int) :=
  (ranges.find? fun kv => kv.1 == name).map Prod.snd

/-- Model of `logs.loc[logs['Grinder'].eq(grinder), 'Grind']`: the
grind cells of the rows whose grinder cell compares equal to `g`. -/
def selectWhereEq (keyCells valCells : List PyCell) (g : PyCell) : List PyCell :=
  ((keyCells.zip valCells).filter fun p => pyEq p.1 g).map Prod.snd

/-- The per-grinder loop of `preprocess_data` (lines 436-454): for each
distinct grinder, normalize its name, fail with the bare `ValueError`
when the config has no range for it (`grinder.lower()` on a non-string
grinder would raise `AttributeError` first — unreachable after the
missing-value check), and run the range check on that grinder's grind
cells. -/
def grinderLoop (ranges : List (String × Int × Int))
    (grinderCells grindCells : List PyCell) : List PyCell → Except PpErr Unit
  | [] => .ok ()
  | g :: gs =>
    match g with
    | .pstr s =>
      match lookupRange ranges (normGrinder s) with
      | none => .error .grinderNotConfigured
      | some (mn, mx) =>
        match validate_grind_settings
            (.objCol (selectWhereEq grinderCells grindCells g)) mn mx with
        | .error e => .error e
        | .ok () => grinderLoop ranges grinderCells grindCells gs
    | _ => .error .attrErrorLower

/-- The validation phase of `preprocess_data` (lines 422-454), run on
the batch with the notes already expanded: missing-value check, score
check, controlled-text check on `Flavor`, controlled-text check on the
`Balance` rows different from the literal `"Balanced"` (the filtered
rows are re-enumerated here; no modelled claim inspects those row
labels), then the per-grinder range checks. -/
def runChecks (cfg : PipelineConfig) (logs2 : DF) : Except PpErr Unit :=
  match check_nan_values logs2 with
  | .error e => .error e
  | .ok () =>
    match getCol logs2 "Score (out of 5)" with
    | none => .error (.keyError "Score (out of 5)")
    | some scores =>
      match check_scores scores with
      | .error e => .error e
      | .ok () =>
        match getCol logs2 "Flavor" with
        | none => .error (.keyError "Flavor")
        | some flavor =>
          match validate_text "Flavor" flavor cfg.adverbs cfg.flavors with
          | .error e => .error e
          | .ok () =>
            match getCol logs2 "Balance" with
            | none => .error (.keyError "Balance")
            | some balance =>
              match validate_text "Balance"
                  (balance.filter fun c => !pyEq c (.pstr "Balanced"))
                  cfg.adverbs cfg.balance with
              | .error e => .error e
              | .ok () =>
                match getCol logs2 "Grinder", getCol logs2 "Grind" with
                | some grinder, some grind =>
                  grinderLoop cfg.grindRanges grinder grind (uniqueCells grinder)
                | none, _ => .error (.keyError "Grinder")
                | _, none => .error (.keyError "Grind")

/-- The batch as it stands after step 4: the `Note` column dropped and
the five expanded notes columns concatenated on the right
(`pd.concat([logs, notes], axis=1)`). -/
def parsedBatch (logs1 : DF) (note : List PyCell) : DF :=
  dropCol logs1 "Note" ++
    [("Bean", notesColumnJ note 0),
     ("Grinder", notesColumnJ note 1),
     ("Grind", notesColumnJ note 2),
     ("Flavor", notesColumnJ note 3),
     ("Balance", notesColumnJ note 4)]

/-- Steps 3-6 of `preprocess_data`, applied once the `Note` column has
been selected from the batch `logs1` (whose `Coffee` column step 1
already rewrote). -/
def preprocessParsed (cfg : PipelineConfig) (logs1 : DF) (note : List PyCell) :
    Except PpErr DF :=
  if notesWidth note = 5 then
    match runChecks cfg (parsedBatch logs1 note) with
    | .error e => .error e
    | .ok () => .ok (parsedBatch logs1 note)
  else .error (.lengthMismatch (notesWidth note) 5)

/-- Model of `load_coffee_logs.preprocess_data(logs)`:
1. strip the `' g'` unit from `Coffee` in place;
2. select `Note`, strip the labels, split on the padded `/` delimiter
   and trim/collapse whitespace (the Field Parser);
3. assign the five fixed names to the expanded columns — raising the
   pandas length-mismatch `ValueError` when the frame's width is not 5;
4. drop `Note` and append the five new columns;
5. run the validator suite;
6. return the batch (the `to_csv` and logging side effects are outside
   the model). -/
def preprocess_data (cfg : PipelineConfig) (logs : DF) : Except PpErr DF :=
  match getCol logs "Coffee" with
  | none => .error (.keyError "Coffee")
  | some coffee =>
    match getCol (setCol logs "Coffee" (coffee.map stripGCell)) "Note" with
    | none => .error (.keyError "Note")
    | some note =>
      preprocessParsed cfg (setCol logs "Coffee" (coffee.map stripGCell)) note

/-- A configuration with singleton vocabularies and one grinder range,
used by the concrete normalizer runs. -/
def cfg0 : PipelineConfig :=
  ⟨["Very"], ["Sweet"], ["Heavy"], [("g1", 1, 10)]⟩

/-- The zero-row raw batch. -/
def emptyBatch : DF :=
  [("Timestamp", []), ("Score (out of 5)", []), ("Coffee", []), ("Note", [])]

/-- A zero-row batch with every column the validators read. -/
def emptyParsedBatch : DF :=
  [("Timestamp", []), ("Score (out of 5)", []), ("Bean", []),
   ("Grind", []), ("Flavor", []), ("Balance", [])]

/-- A well-formed one-row raw batch that normalization accepts under
`cfg0`. -/
def c8Batch : DF :=
  [("Timestamp", [.pint 0]),
   ("Score (out of 5)", [.pint 4]),
   ("Coffee", [.pstr "18 g"]),
   ("Note", [.pstr
     "Bean: B / Grinder: G1 / Grind: 5 / Flavor: Very Sweet / Balance: Very Heavy"])]

/-- The validated batch `preprocess_data cfg0 c8Batch` returns. -/
def c8Out : DF :=
  [("Timestamp", [.pint 0]),
   ("Score (out of 5)", [.pint 4]),
   ("Coffee", [.pstr "18"]),
   ("Bean", [.pstr "B"]),
   ("Grinder", [.pstr "G1"]),
   ("Grind", [.pstr "5"]),
   ("Flavor", [.pstr "Very Sweet"]),
   ("Balance", [.pstr "Very Heavy"])]

/-- The raw notes cell of `c7Batch`, carrying six `/`-separated
segments — one more than the five expected attributes. -/
def c7NoteStr : String :=
  "Bean: B / Grinder: G1 / Grind: 5 / Flavor: Very Sweet / Balance: Very Heavy / Extra"

/-- A one-row raw batch whose notes cell has an extra sixth segment. -/
def c7Batch : DF :=
  [("Timestamp", [.pint 0]),
   ("Score (out of 5)", [.pint 4]),
   ("Coffee", [.pstr "18 g"]),
   ("Note", [.pstr c7NoteStr])]

end CoffeePipeline

deriving instance DecidableEq for Except

namespace CoffeePipeline

lemma checkNanLoop_cases (df : DF) (cols : List String) :
    checkNanLoop df cols [] = .ok ()
    ∨ (∃ c, checkNanLoop df cols [] = .error (.keyError c))
    ∨ (∃ c, checkNanLoop df cols [] = .error (.attrErrorTolist c)) := by
  induction cols with
  | nil => left; simp [checkNanLoop]
  | cons c cs ih =>
    simp only [checkNanLoop]
    cases h1 : getCol df c with
    | none => right; left; exact ⟨c, rfl⟩
    | some cells =>
      cases h2 : getCol df "Timestamp" with
      | none => right; left; exact ⟨"Timestamp", rfl⟩
      | some ts =>
        by_cases h3 : nanIndices cells = []
        · simpa [h3] using ih
        · right; right; exact ⟨c, by simp [h3]⟩

/-- C1 (code_bug): on a batch whose `Bean` column is missing a value,
`check_nan_values` raises `AttributeError` (the f-string calls
`.tolist()` on `nan_idx`, which line 19 already converted to a plain
list) at the first offending column, instead of the claimed single
`ValueError` enumerating every offending column with row indices and
timestamps.  On every input the outcome is a pass, a `KeyError`, or
that `AttributeError` — the enumerating `ValueError` is dead code. -/
theorem check_nan_values_attrError :
    check_nan_values c1FailingBatch = .error (.attrErrorTolist "Bean")
    ∧ ∀ df : DF,
        check_nan_values df = .ok ()
        ∨ (∃ c, check_nan_values df = .error (.keyError c))
        ∨ (∃ c, check_nan_values df = .error (.attrErrorTolist c)) := by
  constructor
  · decide
  · intro df
    exact checkNanLoop_cases df requiredCols

/-- C9: `check_scores` passes exactly when no value compares equal to
the sentinel zero; on failure the reported rows are exactly the indices
of the zero-valued cells; the batch `[4, 0, 5]` fails naming row 1 and
`[4, 3, 5]` passes. -/
theorem check_scores_characterization :
    (∀ col : List PyCell,
       check_scores col = .ok () ↔ ∀ c ∈ col, cellEqZero c = false)
    ∧ (∀ (col : List PyCell) (rows : List Nat),
       check_scores col = .error (.scoreError rows) →
         ∀ i : Nat, i ∈ rows ↔ ∃ c : PyCell, col[i]? = some c ∧ cellEqZero c = true)
    ∧ check_scores [.pint 4, .pint 0, .pint 5] = .error (.scoreError [1])
    ∧ check_scores [.pint 4, .pint 3, .pint 5] = .ok () := by
  have key : ∀ col : List PyCell,
      ((col.enum.filter fun p => cellEqZero p.2).map Prod.fst = []) ↔
        ∀ c ∈ col, cellEqZero c = false := by
    intro col
    rw [List.map_eq_nil_iff, List.filter_eq_nil_iff]
    constructor
    · intro h c hc
      rcases List.mem_iff_getElem?.mp hc with ⟨i, hi⟩
      have := h (i, c) (List.mk_mem_enum_iff_getElem?.mpr hi)
      simpa using this
    · rintro h ⟨i, c⟩ hmem
      have hc : c ∈ col :=
        List.mem_iff_getElem?.mpr ⟨i, List.mk_mem_enum_iff_getElem?.mp hmem⟩
      simp [h c hc]
  refine ⟨?_, ?_, by decide, by decide⟩
  · intro col
    rw [← key col]
    unfold check_scores
    by_cases hnil : ((col.enum.filter fun p => cellEqZero p.2).map Prod.fst) = [] <;>
      simp [hnil]
  · intro col rows h i
    have hrows : rows = (col.enum.filter fun p => cellEqZero p.2).map Prod.fst := by
      by_cases hnil : ((col.enum.filter fun p => cellEqZero p.2).map Prod.fst) = []
      · simp [check_scores, hnil] at h
      · simp only [check_scores, if_neg hnil, Except.error.injEq, PpErr.scoreError.injEq] at h
        exact h.symm
    subst hrows
    constructor
    · intro hi
      rcases List.mem_map.mp hi with ⟨⟨j, c⟩, hmem, hfst⟩
      rcases List.mem_filter.mp hmem with ⟨henum, hz⟩
      have hj : col[j]? = some c := List.mk_mem_enum_iff_getElem?.mp henum
      cases hfst
      exact ⟨c, hj, hz⟩
    · rintro ⟨c, hget, hz⟩
      refine List.mem_map.mpr ⟨(i, c), ?_, rfl⟩
      exact List.mem_filter.mpr ⟨List.mk_mem_enum_iff_getElem?.mpr hget, hz⟩

/-- C9 witness: the naming characterization applied to the batch
`[4, 0, 5]`, whose failure report is `[1]`. -/
theorem check_scores_characterization_witness :
    1 ∈ [1] ↔ ∃ c : PyCell,
      [PyCell.pint 4, PyCell.pint 0, PyCell.pint 5][1]? = some c ∧ cellEqZero c = true :=
  check_scores_characterization.2.1 [.pint 4, .pint 0, .pint 5] [1] (by decide) 1

lemma enumFilter_eq_nil_iff {α : Type} (col : List α) (p : α → Bool) :
    (col.enum.filter fun q => p q.2) = [] ↔ ∀ c ∈ col, p c = false := by
  rw [List.filter_eq_nil_iff]
  constructor
  · intro h c hc
    rcases List.mem_iff_getElem?.mp hc with ⟨i, hi⟩
    have := h (i, c) (List.mk_mem_enum_iff_getElem?.mpr hi)
    simpa using this
  · rintro h ⟨i, c⟩ hmem
    have hc : c ∈ col :=
      List.mem_iff_getElem?.mpr ⟨i, List.mk_mem_enum_iff_getElem?.mp hmem⟩
    simp [h c hc]

lemma le_foldr_max (l : List Nat) (x : Nat) (hx : x ∈ l) : x ≤ l.foldr max 0 := by
  induction l with
  | nil => cases hx
  | cons a as ih =>
    rcases List.mem_cons.mp hx with rfl | h
    · exact Nat.le_max_left _ _
    · exact le_trans (ih h) (Nat.le_max_right _ _)

lemma foldr_max_const2 (l : List Nat) (h : ∀ x ∈ l, x = 2) (hne : l ≠ []) :
    l.foldr max 0 = 2 := by
  induction l with
  | nil => cases hne rfl
  | cons a as ih =>
    have ha : a = 2 := h a (List.mem_cons_self _ _)
    cases as with
    | nil => simp [ha]
    | cons b bs =>
      have hrec : ((b :: bs).foldr max 0) = 2 :=
        ih (fun x hx => h x (List.mem_cons_of_mem _ hx)) (by simp)
      simp [List.foldr_cons, hrec, ha]

lemma contains_true_iff_mem (l : List String) (a : String) :
    l.contains a = true ↔ a ∈ l := by
  simp [List.contains_iff_exists_mem_beq, beq_iff_eq]

lemma splitWidth_map_pstr (vals : List String) :
    splitWidth (vals.map .pstr) =
      (vals.map fun s => (pySplitSpace s).length).foldr max 0 := by
  unfold splitWidth
  rw [List.map_map]
  rfl

/-- C2 (corrected, amended): the legacy one-word tolerance only applies
to the adjective-vocabulary membership check; a one-token cell is still
collected by the blank-adjective selection (`log_utils.py` lines
90-93), so `validate_text` passes exactly when the column is non-empty
and every cell splits into exactly two tokens with token 0 in the
adverb vocabulary and token 1 in the adjective vocabulary. -/
theorem validate_text_pass_characterization :
    ∀ (name : String) (vals : List String) (adverb_list adjective_list : List String),
      validate_text name (vals.map .pstr) adverb_list adjective_list = .ok () ↔
        vals ≠ [] ∧ ∀ s ∈ vals, ∃ a b,
          pySplitSpace s = [a, b] ∧ a ∈ adverb_list ∧ b ∈ adjective_list := by
  intro name vals adverb_list adjective_list
  constructor
  · intro h
    by_cases h0 : splitWidth (vals.map .pstr) = 0
    · simp [validate_text, h0] at h
    by_cases h1 : splitWidth (vals.map .pstr) = 1
    · simp [validate_text, h0, h1] at h
    by_cases h2 : 2 < splitWidth (vals.map .pstr)
    · simp [validate_text, h0, h1, h2] at h
    have hw : splitWidth (vals.map .pstr) = 2 := by omega
    simp only [validate_text, h0, h1, h2, if_false] at h
    set unexpected :=
      offendingPairs (vals.map .pstr) (isInvalidAdverb adverb_list)
        ++ offendingPairs (vals.map .pstr) isBlankAdjective
        ++ offendingPairs (vals.map .pstr) (isInvalidAdjective adjective_list)
      with hU
    have hnil : unexpected = [] := by
      by_contra hne
      simp [hne] at h
    rw [hU] at hnil
    have hadv := (List.append_eq_nil.mp
      (List.append_eq_nil.mp hnil).1).1
    have hblank := (List.append_eq_nil.mp
      (List.append_eq_nil.mp hnil).1).2
    have hadj := (List.append_eq_nil.mp hnil).2
    rw [offendingPairs, enumFilter_eq_nil_iff] at hadv hblank hadj
    have hvne : vals ≠ [] := by
      intro hv
      rw [hv] at hw
      simp [splitWidth] at hw
    refine ⟨hvne, ?_⟩
    intro s hs
    have hc : PyCell.pstr s ∈ vals.map .pstr := List.mem_map_of_mem _ hs
    have hb := hblank _ hc
    have ha := hadv _ hc
    have hj := hadj _ hc
    simp only [isBlankAdjective, tokAt, rowTokens, Option.bind, Option.isNone] at hb
    have hlen2 : (pySplitSpace s).length = 2 := by
      have hle : (pySplitSpace s).length ≤ 2 := by
        rw [splitWidth_map_pstr] at hw
        have : (pySplitSpace s).length ∈ vals.map fun t => (pySplitSpace t).length :=
          List.mem_map_of_mem _ hs
        have := le_foldr_max _ _ this
        omega
      rcases hg : (pySplitSpace s)[1]? with _ | b
      · simp [hg] at hb
      · rcases List.getElem?_eq_some.mp hg with ⟨hlt, -⟩
        omega
    rcases List.length_eq_two.mp hlen2 with ⟨a, b, hab⟩
    refine ⟨a, b, hab, ?_, ?_⟩
    · simp only [isInvalidAdverb, tokAt, rowTokens, hab] at ha
      simp only [Option.bind, List.getElem?_cons_zero] at ha
      simp only [Bool.not_eq_false'] at ha
      exact (contains_true_iff_mem _ _).mp ha
    · simp only [isInvalidAdjective, tokAt, rowTokens, hab] at hj
      simp only [Option.bind] at hj
      simp only [show ([a, b][1]? : Option String) = some b from rfl] at hj
      simp only [Bool.not_eq_false'] at hj
      exact (contains_true_iff_mem _ _).mp hj
  · rintro ⟨hvne, hall⟩
    have hw : splitWidth (vals.map .pstr) = 2 := by
      rw [splitWidth_map_pstr]
      refine foldr_max_const2 _ ?_ ?_
      · intro x hx
        rcases List.mem_map.mp hx with ⟨s, hs, rfl⟩
        rcases hall s hs with ⟨a, b, hab, -, -⟩
        simp [hab]
      · simp [hvne]
    have hadv : ∀ c ∈ vals.map .pstr, isInvalidAdverb adverb_list c = false := by
      rintro c hc
      rcases List.mem_map.mp hc with ⟨s, hs, rfl⟩
      rcases hall s hs with ⟨a, b, hab, hma, -⟩
      simp [isInvalidAdverb, tokAt, rowTokens, hab, Option.bind,
        contains_true_iff_mem, hma]
    have hblank : ∀ c ∈ vals.map .pstr, isBlankAdjective c = false := by
      rintro c hc
      rcases List.mem_map.mp hc with ⟨s, hs, rfl⟩
      rcases hall s hs with ⟨a, b, hab, -, -⟩
      simp [isBlankAdjective, tokAt, rowTokens, hab, Option.bind]
    have hadj : ∀ c ∈ vals.map .pstr, isInvalidAdjective adjective_list c = false := by
      rintro c hc
      rcases List.mem_map.mp hc with ⟨s, hs, rfl⟩
      rcases hall s hs with ⟨a, b, hab, -, hmb⟩
      simp [isInvalidAdjective, tokAt, rowTokens, hab, Option.bind,
        contains_true_iff_mem, hmb]
    have e1 : offendingPairs (vals.map .pstr) (isInvalidAdverb adverb_list) = [] :=
      (enumFilter_eq_nil_iff _ _).mpr hadv
    have e2 : offendingPairs (vals.map .pstr) isBlankAdjective = [] :=
      (enumFilter_eq_nil_iff _ _).mpr hblank
    have e3 : offendingPairs (vals.map .pstr) (isInvalidAdjective adjective_list) = [] :=
      (enumFilter_eq_nil_iff _ _).mpr hadj
    simp [validate_text, hw, e1, e2, e3]

/-- C2 witness: the characterization applied to a concrete passing
column — every cell is an in-vocabulary adverb-adjective pair. -/
theorem validate_text_pass_characterization_witness :
    validate_text "Flavor" ([("Very Sweet" : String)].map .pstr)
      ["Slightly", "Very"] ["Sweet", "Bitter"] = .ok () := by
  refine (validate_text_pass_characterization "Flavor" ["Very Sweet"]
    ["Slightly", "Very"] ["Sweet", "Bitter"]).mpr ⟨by decide, ?_⟩
  intro s hs
  rcases List.mem_singleton.mp hs with rfl
  exact ⟨"Very", "Sweet", rfl, by decide, by decide⟩

/-- C2 counterexample: in a column that does contain a multi-word cell,
the single-token cell `"Very"` (token 0 in the adverb vocabulary, token
1 absent) is collected by the blank-adjective selection, so the check
raises instead of passing as the claim states. -/
theorem validate_text_one_word_flagged :
    validate_text "Balance" [.pstr "Very Sweet", .pstr "Very"]
        ["Slightly", "Very"] ["Sweet", "Bitter"]
      = .error (.textError "Balance" [(1, .pstr "Very")]) := by decide

/-- C4 (code_bug): a cell with three or more space-separated tokens
makes the extra-token loop append plain Python lists to
`unexpected_vals` (`log_utils.py` line 110 ends in `.tolist()`), so the
`pd.concat` at line 113 raises `TypeError` — the claimed single
`ValueError` naming the column and the de-duplicated row-to-value pairs
is never built.  Shown on `"Very Sweet Extra"` alone and mixed with a
valid cell. -/
theorem validate_text_extra_token_typeError :
    validate_text "Flavor" [.pstr "Very Sweet Extra"]
        ["Slightly", "Very"] ["Sweet", "Bitter"]
      = .error (.typeErrorConcat "Flavor")
    ∧ validate_text "Flavor" [.pstr "Very Sweet", .pstr "Very Sweet Extra"]
        ["Slightly", "Very"] ["Sweet", "Bitter"]
      = .error (.typeErrorConcat "Flavor") := by
  exact ⟨by decide, by decide⟩

lemma collapseWsAux_head (fuel : Nat) (d : Char) (ds : List Char) :
    (collapseWsAux (fuel + 1) (d :: ds)).head? = some d
    ∨ ((collapseWsAux (fuel + 1) (d :: ds)).head? = some ' ' ∧ isPyWs d = true) := by
  cases ds with
  | nil => left; rfl
  | cons e es =>
    by_cases h : (isPyWs d && isPyWs e) = true
    · right
      refine ⟨by simp [collapseWsAux, h], (Bool.and_eq_true _ _).mp h |>.1⟩
    · left
      simp [collapseWsAux, h]

lemma collapseWsAux_nil (fuel : Nat) : collapseWsAux fuel [] = [] := by
  cases fuel <;> rfl

lemma noDouble_collapseWsAux :
    ∀ (fuel : Nat) (l : List Char), l.length ≤ fuel →
      noDoubleWs (collapseWsAux fuel l) = true := by
  intro fuel
  induction fuel with
  | zero =>
    intro l hl
    have hnil : l = [] := List.length_eq_zero.mp (Nat.le_zero.mp hl)
    subst hnil
    rfl
  | succ n ih =>
    intro l hl
    match l with
    | [] => rfl
    | [c] => rfl
    | c₁ :: c₂ :: rest =>
      simp only [collapseWsAux]
      by_cases h : (isPyWs c₁ && isPyWs c₂) = true
      · rw [if_pos h]
        have hlen : (rest.dropWhile isPyWs).length ≤ n := by
          have hle := (List.dropWhile_sublist (l := rest) isPyWs).length_le
          simp only [List.length_cons] at hl
          omega
        have hX := ih _ hlen
        rcases hd : rest.dropWhile isPyWs with _ | ⟨d, ds⟩
        · rw [collapseWsAux_nil]
          rfl
        · have hdws : isPyWs d = false := by
            have hh := List.head?_dropWhile_not isPyWs rest
            rw [hd] at hh
            simpa using hh
          cases n with
          | zero =>
            rw [hd] at hlen
            simp at hlen
          | succ m =>
            rw [hd] at hX
            rcases collapseWsAux_head m d ds with hh | ⟨_, hws⟩
            · rcases hc : collapseWsAux (m + 1) (d :: ds) with _ | ⟨x, xs⟩
              · rfl
              · rw [hc] at hh hX
                have hx : x = d := by simpa using hh
                rw [hx] at hX
                simp [noDoubleWs, hx, hdws, hX]
            · rw [hws] at hdws
              cases hdws
      · rw [if_neg h]
        have hlen : (c₂ :: rest).length ≤ n := by
          simp only [List.length_cons] at hl ⊢
          omega
        have hY := ih _ hlen
        cases n with
        | zero => simp at hlen
        | succ m =>
          rcases collapseWsAux_head m c₂ rest with hh | ⟨hh, hws⟩
          · rcases hc : collapseWsAux (m + 1) (c₂ :: rest) with _ | ⟨x, xs⟩
            · rfl
            · rw [hc] at hh hY
              have hx : x = c₂ := by simpa using hh
              have hfalse : (isPyWs c₁ && isPyWs c₂) = false := by
                simpa using h
              rw [hx] at hY
              simp [noDoubleWs, hx, hY, hfalse]
          · rcases hc : collapseWsAux (m + 1) (c₂ :: rest) with _ | ⟨x, xs⟩
            · rfl
            · rw [hc] at hh hY
              have hx : x = ' ' := by simpa using hh
              subst hx
              have hc₁ : isPyWs c₁ = false := by
                rcases hb : isPyWs c₁
                · rfl
                · rw [hb, hws] at h
                  simp at h
              simp [noDoubleWs, hc₁, hY]

lemma noDouble_collapseWs (l : List Char) : noDoubleWs (collapseWs l) = true :=
  noDouble_collapseWsAux l.length l le_rfl

/-- C5 (corrected, amended): every token produced by the notes parsing
pipeline (label strip, whitespace-padded `/` split, one-character end
trim, whitespace-run collapse) has no two adjacent whitespace
characters — interior runs of two or more whitespace characters are
collapsed to a single space and at most one leading and one trailing
whitespace character can remain.  Because the `^\s|\s$` substitution
removes only one character per end and runs before the collapse, a
token with two or more leading (or trailing) whitespace characters
keeps exactly one, so full trimming does not hold (see the
counterexample). -/
theorem parse_notes_noDoubleWs :
    ∀ s : String,
      ((coffeeParseNotes s).all fun t => noDoubleWs t.data) = true
      ∧ ((bcParseNotes s).all fun t => noDoubleWs t.data) = true := by
  intro s
  constructor <;>
  · rw [List.all_eq_true]
    intro t ht
    rcases List.mem_map.mp ht with ⟨l, hl, rfl⟩
    rcases List.mem_map.mp hl with ⟨u, _, rfl⟩
    exact noDouble_collapseWs (trimOneWs u)

/-- C5 counterexample: the notes cell `"Bean:   X"` (three spaces after
the label) parses to the single token `" X"`, which still begins with a
whitespace character: the claimed complete removal of leading/trailing
whitespace fails for tokens with two or more leading whitespace
characters. -/
theorem parse_notes_residual_leading_space :
    coffeeParseNotes "Bean:   X" = [" X"]
    ∧ ((coffeeParseNotes "Bean:   X").all fullyTrimmed) = false := by
  exact ⟨rfl, rfl⟩

lemma castObjCol_badStr (vals : List PyCell)
    (hok : ∀ c ∈ vals, isIntOrStr c = true)
    (hbad : ∃ s, PyCell.pstr s ∈ vals ∧ pyParseInt s = none) :
    castObjCol vals = .error .badStr := by
  induction vals with
  | nil =>
    rcases hbad with ⟨s, hs, -⟩
    cases hs
  | cons c cs ih =>
    rcases hbad with ⟨s, hs, hparse⟩
    match c, hok c (List.mem_cons_self _ _) with
    | .pint n, _ =>
      have hmem : PyCell.pstr s ∈ cs := by
        rcases List.mem_cons.mp hs with heq | h
        · cases heq
        · exact h
      have := ih (fun d hd => hok d (List.mem_cons_of_mem _ hd)) ⟨s, hmem, hparse⟩
      simp [castObjCol, castCell, this]
    | .pstr t, _ =>
      by_cases hp : pyParseInt t = none
      · simp [castObjCol, castCell, hp]
      · rcases Option.ne_none_iff_exists.mp hp with ⟨n, hn⟩
        have hmem : PyCell.pstr s ∈ cs := by
          rcases List.mem_cons.mp hs with heq | h
          · cases heq
            rw [hparse] at hn
            cases hn
          · exact h
        have := ih (fun d hd => hok d (List.mem_cons_of_mem _ hd)) ⟨s, hmem, hparse⟩
        simp [castObjCol, castCell, ← hn, this]

/-- C3 (corrected, amended): when a grind column of integers and
strings contains a string that `int()` cannot coerce, the check fails
immediately with the non-integer `ValueError` and no range violation is
reported — but the error names every row whose value is not of integer
type, because the `except` handler filters with the type check
`pd.api.types.is_integer`; for a string column that is every row,
including coercible strings such as `"18"` and `"22"`. -/
theorem grind_coercion_failure_characterization :
    ∀ (vals : List PyCell) (min_val max_val : Int),
      (∀ c ∈ vals, isIntOrStr c = true) →
      (∃ s, PyCell.pstr s ∈ vals ∧ pyParseInt s = none) →
      validate_grind_settings (.objCol vals) min_val max_val
        = .error (.grindNonInteger (nonIntTypedPairs vals)) := by
  intro vals min_val max_val hok hbad
  have hc := castObjCol_badStr vals hok hbad
  simp [validate_grind_settings, hc]

/-- C3 witness: the characterization applied to the spec's own example
column `["18", "22", "abc"]` with range `[10, 30]`. -/
theorem grind_coercion_failure_characterization_witness :
    validate_grind_settings (.objCol [.pstr "18", .pstr "22", .pstr "abc"]) 10 30
      = .error (.grindNonInteger
          (nonIntTypedPairs [.pstr "18", .pstr "22", .pstr "abc"])) :=
  grind_coercion_failure_characterization
    [.pstr "18", .pstr "22", .pstr "abc"] 10 30 (by decide) ⟨"abc", by decide, rfl⟩

/-- C3 counterexample: on `["18", "22", "abc"]` with range `[10, 30]`
the raised error names rows 0 and 1 with the coercible values `"18"`
and `"22"` alongside `"abc"` — the claim that only the non-coercible
rows are named is false. -/
theorem grind_non_coercible_names_all_strings :
    validate_grind_settings (.objCol [.pstr "18", .pstr "22", .pstr "abc"]) 10 30
      = .error (.grindNonInteger
          [(0, .pstr "18"), (1, .pstr "22"), (2, .pstr "abc")]) := by decide

lemma rangeViolations_nil_iff (vals : List Int) (mn mx : Int) :
    rangeViolations vals mn mx = [] ↔ ∀ v ∈ vals, mn ≤ v ∧ v ≤ mx := by
  rw [rangeViolations, List.map_eq_nil_iff, List.filter_eq_nil_iff]
  constructor
  · intro h v hv
    rcases List.mem_iff_getElem?.mp hv with ⟨i, hi⟩
    have := h (i, v) (List.mk_mem_enum_iff_getElem?.mpr hi)
    simpa using this
  · rintro h ⟨i, v⟩ hmem
    have hv : v ∈ vals :=
      List.mem_iff_getElem?.mpr ⟨i, List.mk_mem_enum_iff_getElem?.mp hmem⟩
    simp [h v hv]

/-- C10 (corrected, amended): on a float column all of whose values are
finite, `validate_grind_settings` never reports a non-integer error —
`astype(int)` truncates each value toward zero and the check passes
exactly when every truncation lies in `[min_val, max_val]` (so 22.5
passes for the range `[10, 30]`).  A float column containing `NaN` or
an infinity, however, does fail with the non-integer error, naming
every row (see the counterexample). -/
theorem grind_float_truncation_characterization :
    ∀ (vals : List Flt) (min_val max_val : Int),
      (∀ v ∈ vals, v.isFinite = true) →
      (validate_grind_settings (.fltCol vals) min_val max_val = .ok ()
          ↔ ∀ v ∈ vals, min_val ≤ v.trunc ∧ v.trunc ≤ max_val)
      ∧ (validate_grind_settings (.fltCol vals) min_val max_val = .ok ()
          ∨ ∃ pairs, validate_grind_settings (.fltCol vals) min_val max_val
              = .error (.grindRange pairs)) := by
  intro vals min_val max_val hfin
  have hall : vals.all Flt.isFinite = true := List.all_eq_true.mpr hfin
  constructor
  · rw [validate_grind_settings]
    rw [if_pos hall]
    by_cases hnil : rangeViolations (vals.map Flt.trunc) min_val max_val = []
    · rw [if_pos hnil]
      simp only [true_iff]
      intro v hv
      exact (rangeViolations_nil_iff _ _ _).mp hnil _ (List.mem_map_of_mem _ hv)
    · rw [if_neg hnil]
      simp only [reduceCtorEq, false_iff]
      intro hcon
      apply hnil
      rw [rangeViolations_nil_iff]
      intro v hv
      rcases List.mem_map.mp hv with ⟨w, hw, rfl⟩
      exact hcon w hw
  · rw [validate_grind_settings, if_pos hall]
    by_cases hnil : rangeViolations (vals.map Flt.trunc) min_val max_val = []
    · left; rw [if_pos hnil]
    · right; exact ⟨_, by rw [if_neg hnil]⟩

/-- C10 witness: the value 22.5 on a finite float column truncates to
22, inside `[10, 30]`, so the check passes without any non-integer
error. -/
theorem grind_float_truncation_characterization_witness :
    validate_grind_settings (.fltCol [.fin (mkRat 45 2)]) 10 30 = .ok () :=
  (grind_float_truncation_characterization [.fin (mkRat 45 2)] 10 30
    (by decide)).1.mpr (by decide)

/-- C10 counterexample: a float column containing `NaN` does make
`validate_grind_settings` report a non-integer error (the cast raises
`ValueError`, and the handler's `is_integer` filter selects every float
row), refuting the claim that a float column never triggers it. -/
theorem grind_float_nan_nonInteger :
    validate_grind_settings (.fltCol [.nan]) 10 30
      = .error (.grindNonInteger [(0, .pflt .nan)]) := by decide

/-- C6 counterexample: normalization of the zero-row batch raises the
column-assignment length mismatch (the empty notes column expands to a
0-column frame, and 5 names are assigned), and `validate_text` on an
empty column raises a `KeyError` — neither returns an empty validated
result as the claim states. -/
theorem empty_batch_raises :
    preprocess_data cfg0 emptyBatch = .error (.lengthMismatch 0 5)
    ∧ validate_text "Balance" [] ["Very"] ["Heavy"] = .error (.keyError "adverbs") :=
  ⟨rfl, rfl⟩

/-- C6 (corrected, amended): on empty input the missing-value, score
and range checks pass vacuously, but `validate_text` raises a
`KeyError` (the 0-column split frame has no `adverbs` column to
select), and normalization of a zero-row batch raises the
column-assignment length mismatch (0 split columns, 5 names) instead of
returning an empty validated batch. -/
theorem empty_input_characterization :
    ∀ (cfg : PipelineConfig) (mn mx : Int) (adv adj : List String) (name : String),
      check_nan_values emptyParsedBatch = .ok ()
      ∧ check_scores [] = .ok ()
      ∧ validate_grind_settings (.objCol []) mn mx = .ok ()
      ∧ validate_text name [] adv adj = .error (.keyError "adverbs")
      ∧ preprocess_data cfg emptyBatch = .error (.lengthMismatch 0 5) := by
  intro cfg mn mx adv adj name
  exact ⟨rfl, rfl, rfl, rfl, rfl⟩

/-- C7 counterexample: a record whose notes cell has six `/`-separated
segments makes normalization raise the pandas column-length mismatch
(`Length mismatch: expected axis has 6 elements, new values have 5
elements`) during parsing, before any validator runs — not the claimed
extra-token validation failure naming the extra value. -/
theorem extra_tokens_length_mismatch :
    preprocess_data cfg0 c7Batch = .error (.lengthMismatch 6 5) := rfl

/-- C7 (corrected, amended): when some notes cell splits into six or
more segments, normalization fails at the `notes.columns` assignment
with a length-mismatch error that carries only the column counts — it
does not silently drop the extra segments, never produces a validated
batch, but also never names the extra values. -/
theorem token_count_mismatch_characterization :
    ∀ (cfg : PipelineConfig) (logs : DF) (coffee note : List PyCell)
      (c : PyCell) (ts : List String),
      getCol logs "Coffee" = some coffee →
      getCol (setCol logs "Coffee" (coffee.map stripGCell)) "Note" = some note →
      c ∈ note → noteTokens c = some ts → 6 ≤ ts.length →
      6 ≤ notesWidth note
      ∧ preprocess_data cfg logs = .error (.lengthMismatch (notesWidth note) 5) := by
  intro cfg logs coffee note c ts hcof hnote hmem htok hlen
  have hwidth : 6 ≤ notesWidth note := by
    have hm : ts.length ∈ note.map fun d =>
        match noteTokens d with
        | some u => u.length
        | none => 1 := by
      refine List.mem_map.mpr ⟨c, hmem, ?_⟩
      rw [htok]
    exact le_trans hlen (le_foldr_max _ _ hm)
  refine ⟨hwidth, ?_⟩
  have h5 : ¬notesWidth note = 5 := by omega
  simp only [preprocess_data, hcof, hnote]
  rw [preprocessParsed, if_neg h5]

/-- C7 witness: the characterization applied to the six-segment batch
`c7Batch`. -/
theorem token_count_mismatch_characterization_witness :
    6 ≤ notesWidth [.pstr c7NoteStr]
    ∧ preprocess_data cfg0 c7Batch
        = .error (.lengthMismatch (notesWidth [.pstr c7NoteStr]) 5) :=
  token_count_mismatch_characterization cfg0 c7Batch
    [.pstr "18 g"] [.pstr c7NoteStr] (.pstr c7NoteStr) (coffeeParseNotes c7NoteStr)
    rfl rfl (by decide) rfl (by decide)

lemma find?_dropCol_self (df : DF) (n : String) :
    ((dropCol df n).find? fun kv => kv.1 == n) = none := by
  rw [dropCol, List.find?_filter, List.find?_eq_none]
  intro x hx
  simp only [bne, decide_eq_true_eq, not_and, Bool.not_eq_true', beq_eq_false_iff_ne,
    ne_eq, beq_iff_eq]
  intro h1 h2
  exact h1 h2

lemma find?_dropCol_ne (df : DF) (n m : String) (h : m ≠ n) :
    ((dropCol df n).find? fun kv => kv.1 == m) = df.find? fun kv => kv.1 == m := by
  rw [dropCol, List.find?_filter]
  congr 1
  funext a
  by_cases hm : (a.1 == m) = true
  · have ha : a.1 = m := by simpa using hm
    have : (a.1 != n) = true := by
      simp [bne, ha]
      exact h
    simp [this, hm]
  · simp [hm]

lemma find?_markMap (df : DF) (n m : String) (v : List PyCell) (h : m ≠ n) :
    ((df.map fun kv => if kv.1 == n then (n, v) else kv).find? fun kv => kv.1 == m)
      = df.find? fun kv => kv.1 == m := by
  induction df with
  | nil => rfl
  | cons kv rest ih =>
    by_cases hk : (kv.1 == n) = true
    · have hkv : kv.1 = n := by simpa using hk
      have hm1 : ((n : String) == m) = false := by
        simp [beq_eq_false_iff_ne]
        exact fun hcon => h hcon.symm
      have hm2 : (kv.1 == m) = false := by
        rw [hkv]; exact hm1
      simp only [List.map_cons, if_pos hk]
      rw [List.find?_cons_of_neg _ (by simp [hm1]), List.find?_cons_of_neg _ (by simp [hm2])]
      exact ih
    · simp only [List.map_cons, if_neg hk]
      by_cases hm : (kv.1 == m) = true
      · rw [List.find?_cons_of_pos _ (by simp [hm]), List.find?_cons_of_pos _ (by simp [hm])]
      · rw [List.find?_cons_of_neg _ (by simp [hm]), List.find?_cons_of_neg _ (by simp [hm])]
        exact ih

lemma find?_markMap_self (df : DF) (n : String) (v : List PyCell)
    (hpresent : (df.find? fun kv => kv.1 == n).isSome = true) :
    ((df.map fun kv => if kv.1 == n then (n, v) else kv).find? fun kv => kv.1 == n)
      = some (n, v) := by
  induction df with
  | nil => simp at hpresent
  | cons kv rest ih =>
    by_cases hk : (kv.1 == n) = true
    · simp only [List.map_cons, if_pos hk]
      rw [List.find?_cons_of_pos _ (by simp)]
    · simp only [List.map_cons, if_neg hk]
      rw [List.find?_cons_of_neg _ (by simp [hk])]
      apply ih
      rw [List.find?_cons_of_neg _ (by simp [hk])] at hpresent
      exact hpresent

lemma find?_setCol_self (df : DF) (n : String) (v : List PyCell) :
    ((setCol df n v).find? fun kv => kv.1 == n) = some (n, v) := by
  rw [setCol]
  by_cases h : (df.find? fun kv => kv.1 == n).isSome = true
  · rw [if_pos h]
    exact find?_markMap_self df n v h
  · rw [if_neg h]
    have hnone : (df.find? fun kv => kv.1 == n) = none := by
      cases hf : df.find? fun kv => kv.1 == n
      · rfl
      · rw [hf] at h
        simp at h
    rw [List.find?_append, hnone]
    simp

lemma find?_setCol_ne (df : DF) (n m : String) (v : List PyCell) (h : m ≠ n) :
    ((setCol df n v).find? fun kv => kv.1 == m) = df.find? fun kv => kv.1 == m := by
  rw [setCol]
  by_cases hp : (df.find? fun kv => kv.1 == n).isSome = true
  · rw [if_pos hp]
    exact find?_markMap df n m v h
  · rw [if_neg hp]
    rw [List.find?_append]
    have hsingle : (([(n, v)] : DF).find? fun kv => kv.1 == m) = none := by
      have : ((n : String) == m) = false := by
        simp [beq_eq_false_iff_ne]
        exact fun hcon => h hcon.symm
      simp [this]
    rw [hsingle]
    cases df.find? fun kv => kv.1 == m <;> rfl

/-- C8 (corrected, amended): a batch accepted by normalization comes
out without its `Note` column (the parser consumed it), so running
normalization a second time on the validated output does not succeed —
it raises `KeyError: 'Note'` at the notes selection.  Normalization is
therefore not idempotent on its own outputs. -/
theorem normalize_not_idempotent :
    ∀ (cfg : PipelineConfig) (logs out : DF),
      preprocess_data cfg logs = .ok out →
      getCol out "Note" = none
      ∧ preprocess_data cfg out = .error (.keyError "Note") := by
  intro cfg logs out h
  rw [preprocess_data] at h
  split at h
  · cases h
  · rename_i coffee hc
    split at h
    · cases h
    · rename_i note hn
      rw [preprocessParsed] at h
      split at h
      · rename_i hw
        split at h
        · cases h
        · cases h
          have hnote2 : getCol
              (parsedBatch (setCol logs "Coffee" (coffee.map stripGCell)) note)
              "Note" = none := by
            rw [parsedBatch, getCol, List.find?_append, find?_dropCol_self]
            rfl
          refine ⟨hnote2, ?_⟩
          have hcof2 : getCol
              (parsedBatch (setCol logs "Coffee" (coffee.map stripGCell)) note)
              "Coffee" = some (coffee.map stripGCell) := by
            rw [parsedBatch, getCol, List.find?_append,
              find?_dropCol_ne _ _ _ (by decide),
              find?_setCol_self]
            rfl
          have hnote3 : getCol (setCol
              (parsedBatch (setCol logs "Coffee" (coffee.map stripGCell)) note)
              "Coffee" ((coffee.map stripGCell).map stripGCell)) "Note" = none := by
            rw [getCol] at hnote2 ⊢
            rw [find?_setCol_ne _ _ _ _ (by decide)]
            exact hnote2
          rw [preprocess_data]
          split
          · rename_i hcc
            rw [hcof2] at hcc
            cases hcc
          · rename_i coffee1 hcc
            rw [hcof2] at hcc
            injection hcc with hcc1
            subst hcc1
            split
            · rfl
            · rename_i note1 hnn
              rw [hnote3] at hnn
              cases hnn
      · cases h

/-- C8 counterexample: the concrete batch `c8Batch` is accepted under
`cfg0`, producing `c8Out`; running normalization again on `c8Out`
raises `KeyError: 'Note'` instead of succeeding with an identical
batch. -/
theorem normalize_second_run_fails_concrete :
    preprocess_data cfg0 c8Batch = .ok c8Out
    ∧ preprocess_data cfg0 c8Out = .error (.keyError "Note") :=
  ⟨rfl, rfl⟩

/-- C8 witness: the theorem applied to the accepted batch `c8Batch`
and its validated output `c8Out`. -/
theorem normalize_not_idempotent_witness :
    getCol c8Out "Note" = none
    ∧ preprocess_data cfg0 c8Out = .error (.keyError "Note") :=
  normalize_not_idempotent cfg0 c8Batch c8Out rfl

end CoffeePipeline
